import Mathlib

/-!
Verification of the DroneSpec airborne gas-sensing pipeline.

This file gives a shallow embedding of the coordination logic of the
DroneSpec repository and proves (or refutes) the specification claims
about it.  The embedded pieces are:

* the result-ledger consumer `listener` of run_DroneSpec.py (lines 52-75);
* the incremental ledger sync `sync_so2_data` of ifit/pispec.py (lines 42-75)
  together with the other transport-facing sync operations;
* the fit-job admission control of the acquisition loop of
  run_DroneSpec.py (lines 234-251);
* the exposure (integration-time) update of run_DroneSpec.py (lines 214-232);
* the fit job body `analyse_spec` of run_DroneSpec.py (lines 20-49);
* the ground-side log mirror `MainWindow.update_log` and `SyncWorker._run`
  of DroneSpecUI.py;
* the cancellation path of the acquisition loop of run_DroneSpec.py
  (lines 203-264).

Machine reals (numpy floats) are modelled by rationals; Python exceptions
by `Option`/`Except`; the multiprocessing queue by a list of messages in
arrival order.
-/

namespace DroneSpec

/-! ### ResultLedger consumer (run_DroneSpec.py, `listener`, lines 52-75) -/

/-- One message on the multiprocessing queue feeding `listener`: either a
result list put by `analyse_spec` (`q.put(res)`) or the shutdown sentinel
string put by the acquisition loop (`q.put('kill')`). -/
inductive QMsg where
  | record (fields : List String)
  | kill
  deriving DecidableEq

/-- Fixed header written by `listener` when the output file is created. -/
def headerLine : String :=
  "Time,Lat,Lon,Alt,X,Y,ZoneNum,ZoneLett,SO2_SCD_mol,SO2_err_mol," ++
    "SO2_SCD_ppmm,SO2_err_ppmm,IntegrationTime,Intensity"

/-- Formatting of one result row: `msg = str(res[0])` followed by
`msg += f',{r}'` for the remaining fields, i.e. comma-joined fields. -/
def rowString (fields : List String) : String :=
  String.intercalate "," fields

/-- State of the output file owned by `listener`: everything written so far
(in order) and the prefix guaranteed durable by an explicit `flush` (or by
closing the file). -/
structure FileState where
  written : List String
  flushed : List String
  deriving DecidableEq

/-- File state right after `open(save_fname, 'w')` and `w.write(h + '\n')`:
the header line is written but not yet flushed. -/
def listenerStart : FileState :=
  { written := [headerLine], flushed := [] }

/-- The receive loop of `listener`: take the next queue message; on the
`'kill'` sentinel break out (the `with` block then closes, hence flushes,
the file); otherwise append the formatted row and flush
(`w.write(msg + '\n'); w.flush()`). -/
def listenerLoop : FileState → List QMsg → FileState
  | fs, [] => fs
  | fs, QMsg.kill :: _ => { written := fs.written, flushed := fs.written }
  | fs, QMsg.record r :: rest =>
      listenerLoop
        { written := fs.written ++ [rowString r],
          flushed := fs.written ++ [rowString r] } rest

/-- Whole run of `listener` on the messages delivered on the queue, in
arrival order. -/
def listenerRun (msgs : List QMsg) : FileState :=
  listenerLoop listenerStart msgs

/-! ### Ledger sync (ifit/pispec.py, `sync_so2_data`, lines 42-75) -/

/-- Result of `tail -n n file`: the last `n` lines (all lines when the file
has fewer than `n`). -/
def tailLines (n : Nat) (lines : List String) : List String :=
  lines.drop (lines.length - n)

/-- Body of `sync_so2_data` when the local replica exists: fetch the last
`buffer_len` remote lines, append to the local file every fetched line not
already contained in the list of local lines (the local list is read once,
before the loop), and report whether anything was appended. -/
def syncExisting (locLines remLines : List String) (bufferLen : Nat) :
    List String × Bool :=
  let appended :=
    (tailLines bufferLen remLines).filter (fun line => !locLines.contains line)
  (locLines ++ appended, !appended.isEmpty)

/-- Entry point of `sync_so2_data`: when opening the local replica raises
`FileNotFoundError` (`loc = none`), `copy_so2_data` performs a full copy of
the remote ledger and the function returns `True`; otherwise the
tail-window diff of `syncExisting` runs. -/
def sync_so2_data (loc : Option (List String)) (remLines : List String)
    (bufferLen : Nat) : List String × Bool :=
  match loc with
  | none => (remLines, true)
  | some locLines => syncExisting locLines remLines bufferLen

/-! ### Fit-job admission control (run_DroneSpec.py, lines 234-251) -/

/-- Outcome of one admission decision of the acquisition loop: the new
in-flight process list, whether a new fit job was started, whether the
too-many-processes warning was logged, and whether the spectrum file was
removed from disk (the loop never deletes it). -/
structure CycleOutcome (α : Type) where
  processes : List α
  submitted : Bool
  warned : Bool
  spectrumRemoved : Bool

/-- Pruning step `processes = [p for p in processes if p.is_alive()]`. -/
def pruneFinished {α : Type} (isAlive : α → Bool) (processes : List α) :
    List α :=
  processes.filter isAlive

/-- One admission decision: prune finished jobs, then start a new process
only when fewer than 3 remain in flight; otherwise log the warning and
leave the spectrum file on disk. -/
def dispatchCycle {α : Type} (isAlive : α → Bool) (processes : List α)
    (newJob : α) : CycleOutcome α :=
  let pruned := pruneFinished isAlive processes
  if pruned.length < 3 then
    { processes := pruned ++ [newJob], submitted := true, warned := false,
      spectrumRemoved := false }
  else
    { processes := pruned, submitted := false, warned := true,
      spectrumRemoved := false }

/-- In-flight process list after a sequence of acquisition cycles, each
cycle given by the aliveness observed at prune time and the job it would
submit; the loop starts with an empty process list. -/
def dispatchRun {α : Type} (cycles : List ((α → Bool) × α)) : List α :=
  cycles.foldl (fun ps c => (dispatchCycle c.1 ps c.2).processes) []

/-! ### Exposure control (run_DroneSpec.py, lines 214-232) -/

/-- Ladder of allowed integration times,
`np.arange(MinIntTime, MaxIntTime + IntTimeStep, IntTimeStep)`. -/
def intTimes (minT maxT step : Nat) : List Nat :=
  (List.range ((maxT + step - minT + step - 1) / step)).map
    (fun k => minT + k * step)

/-- Scaling step `scale = target_int / max_int`.  Python division by zero
raises, so the result is `none` exactly when the observed peak is zero;
there is no guard in the source. -/
def scaleFactor (targetInt maxInt : ℚ) : Option ℚ :=
  if maxInt = 0 then none else some (targetInt / maxInt)

/-- Nearest-ladder-value selection: `diff = ((int_times - int_time)**2)**0.5`
followed by `np.where(diff == min(diff))[0][0]`, i.e. the first ladder
entry minimising the absolute distance to the scaled time. -/
def chooseIntTime (ladder : List Nat) (scaled : ℚ) : Option Nat :=
  ladder.argmin (fun t => |(t : ℚ) - scaled|)

/-- Exposure update of one acquisition cycle: compute the scale factor from
the target and the observed peak, scale the last integration time, and pick
the nearest ladder value.  `none` models the cycle faulting on the
unguarded zero-peak division. -/
def exposureNext (targetInt maxInt lastIntTime : ℚ) (ladder : List Nat) :
    Option Nat :=
  match scaleFactor targetInt maxInt with
  | none => none
  | some scale => chooseIntTime ladder (lastIntTime * scale)

/-! ### Fit job body (run_DroneSpec.py, `analyse_spec`, lines 20-49) -/

/-- Internal errors a fit job can raise: spectrum read failure, fitting
failure, or lat/lon-to-UTM projection failure.  `analyse_spec` installs no
handler for any of them. -/
inductive FitJobError where
  | readFailure
  | fitFailure
  | projectionFailure
  deriving DecidableEq

/-- Externally visible effects of one fit job: the per-spectrum audit file
(written just before the queue put) and the messages put on the result
queue. -/
structure JobEffects where
  measFile : Option (List String)
  queueMsgs : List QMsg
  deriving DecidableEq

/-- Embedding of `analyse_spec`: the pipeline (read, fit, project, collate)
either produces the result row `res` or raises.  On success the audit file
is written and `q.put(res)` delivers exactly one queue message; on an
exception the process dies before either effect, so nothing reaches the
queue. -/
def analyse_spec (outcome : Except FitJobError (List String)) : JobEffects :=
  match outcome with
  | Except.ok res => { measFile := some res, queueMsgs := [QMsg.record res] }
  | Except.error _ => { measFile := none, queueMsgs := [] }

/-- Queue content produced by a batch of independent fit jobs. -/
def jobBatchMsgs (outcomes : List (Except FitJobError (List String))) :
    List QMsg :=
  outcomes.flatMap (fun o => (analyse_spec o).queueMsgs)

/-! ### Transport-facing sync client (ifit/pispec.py, class PiSpec) -/

/-- Typed transport failures: a remote command (`run_command`) failing or a
remote file copy (`copy_remote_file`) failing. -/
inductive SyncTransportError where
  | commandFailure
  | copyFailure
  deriving DecidableEq

/-- The two primitives PiSpec uses from the SSH client. -/
structure Transport where
  run_command : String → Except SyncTransportError (List String)
  copy_remote_file : String → String → Except SyncTransportError Unit

/-- Remote results directory for the watched folder. -/
def remoteRoot (folder : String) : String :=
  "/home/pi/drone/Results/" ++ folder

/-- Local replica directory for the watched folder. -/
def localRoot (folder : String) : String :=
  "Results/" ++ folder

/-- Embedding of `os.path.split(path)[1]`: the final path component. -/
def basename (path : String) : String :=
  String.mk ((path.data.reverse.takeWhile (fun c => c != '/')).reverse)

/-- Embedding of `PiSpec.pull_log`: a single unconditional remote copy of
the log file; any transport failure propagates to the caller. -/
def pull_log (t : Transport) (folder : String) :
    Except SyncTransportError Unit :=
  t.copy_remote_file (remoteRoot folder ++ "/log.txt")
    (localRoot folder ++ "/log.txt")

/-- Remote command issued by `sync_so2_data` to fetch the ledger tail. -/
def tailCommand (folder : String) (bufferLen : Nat) : String :=
  "tail -n " ++ toString bufferLen ++ " " ++ remoteRoot folder ++
    "/so2_output.csv"

/-- Transport-level embedding of `PiSpec.sync_so2_data`, returning the
updated flag: with no local replica the bootstrap copy runs
(`copy_so2_data`) and any copy failure propagates; otherwise the tail
command runs and any command failure propagates, the local diff-append
itself being local file I/O. -/
def sync_so2_data_remote (t : Transport) (folder : String)
    (loc : Option (List String)) (bufferLen : Nat) :
    Except SyncTransportError Bool :=
  match loc with
  | none =>
      match t.copy_remote_file (remoteRoot folder ++ "/so2_output.csv")
          (localRoot folder ++ "/so2_output.csv") with
      | Except.ok _ => Except.ok true
      | Except.error e => Except.error e
  | some locLines =>
      match t.run_command (tailCommand folder bufferLen) with
      | Except.ok remLines =>
          Except.ok (syncExisting locLines remLines bufferLen).2
      | Except.error e => Except.error e

/-- Embedding of `PiSpec.sync_results`: list the remote measurement files,
then copy each one missing locally, with each copy wrapped in
`try: ... except Exception: pass` — a failing copy is silently skipped and
the file is simply left out of the returned list of synced files. -/
def sync_results (t : Transport) (folder : String) (locFiles : List String) :
    Except SyncTransportError (List String) :=
  match t.run_command ("ls " ++ remoteRoot folder ++ "/meas/meas*") with
  | Except.error e => Except.error e
  | Except.ok remPaths =>
      let remFiles := remPaths.map basename
      let toSync := remFiles.filter (fun f => !locFiles.contains f)
      Except.ok (toSync.foldl
        (fun acc f =>
          match t.copy_remote_file (remoteRoot folder ++ "/meas/" ++ f)
              (localRoot folder ++ "/meas/" ++ f) with
          | Except.ok _ => acc ++ [localRoot folder ++ "/meas/" ++ f]
          | Except.error _ => acc)
        [])

/-- Sequential remote copies with no exception handler: the first failure
propagates, aborting the remaining copies. -/
def copyAll (t : Transport) : List (String × String) →
    Except SyncTransportError Unit
  | [] => Except.ok ()
  | (r, l) :: rest =>
      match t.copy_remote_file r l with
      | Except.ok _ => copyAll t rest
      | Except.error e => Except.error e

/-- Embedding of `PiSpec.sync_spectra`: list the remote spectrum files and
copy each one missing locally; there is no handler around the copies, so
any transport failure propagates. -/
def sync_spectra (t : Transport) (folder : String) (locFiles : List String) :
    Except SyncTransportError (List String) :=
  match t.run_command ("ls " ++ remoteRoot folder ++ "/spectrum*") with
  | Except.error e => Except.error e
  | Except.ok remPaths =>
      let remFiles := remPaths.map basename
      let toSync := remFiles.filter (fun f => !locFiles.contains f)
      match copyAll t (toSync.map
          (fun f => (remoteRoot folder ++ "/" ++ f,
            localRoot folder ++ "/" ++ f))) with
      | Except.ok _ => Except.ok toSync
      | Except.error e => Except.error e

/-! ### Ground-side log mirror (DroneSpecUI.py, `MainWindow.update_log`
lines 302-306, fed by `SyncWorker._run` lines 413-424) -/

/-- Embedding of Python `text.split('\n')` at character level: splitting
the empty string yields `[""]`, one empty segment, never `[]`. -/
def splitNlChars : List Char → List (List Char)
  | [] => [[]]
  | c :: rest =>
      match splitNlChars rest with
      | [] => [[]]
      | line :: lines =>
          if c = '\n' then [] :: line :: lines else (c :: line) :: lines

/-- Text the log widget holds when it displays the given lines
(`QPlainTextEdit.toPlainText`): lines joined by newlines; the empty widget
holds the empty string. -/
def widgetText (w : List String) : String :=
  String.intercalate "\n" w

/-- Embedding of `MainWindow.update_log`: count the lines of the current
widget text via `split('\n')` and append every emitted log line beyond that
count.  The worker emits the full log file each cycle. -/
def update_log (w : List String) (logText : List String) : List String :=
  w ++ logText.drop (splitNlChars (widgetText w).data).length

/-- Accumulated widget content after a sequence of monitor cycles, each
cycle emitting the full remote log as read at that moment; the widget
starts empty. -/
def monitorLogCycles (logs : List (List String)) : List String :=
  logs.foldl update_log []

/-! ### Acquisition-loop cancellation (run_DroneSpec.py, lines 203-264) -/

/-- Observable events of one iteration of the acquisition loop: the control
marker is absent and the 1 s sleep completes (`controlOff`), the operator
interrupt arrives during that sleep — outside the `try` block
(`controlOffInterrupt`), the marker is present and the acquisition body
completes (`activeCycle`), or the interrupt arrives inside the `try` body
(`activeInterrupt`). -/
inductive LoopEvent where
  | controlOff
  | controlOffInterrupt
  | activeCycle
  | activeInterrupt
  deriving DecidableEq

/-- What the process does on its way out: whether `q.put('kill')` ran,
whether `listen.join()` ran, and whether every in-flight fit process was
joined. -/
structure ShutdownOutcome where
  sentinelSent : Bool
  listenerJoined : Bool
  jobsJoined : Bool
  deriving DecidableEq

/-- Shutdown behaviour of the acquisition loop: an interrupt inside the
`try` body is caught (`except KeyboardInterrupt`), puts the sentinel,
breaks, and the code after the loop joins the listener and every process;
an interrupt during the inactive-poll sleep is outside the `try`, so it
propagates out of `run` — no sentinel, no joins (the daemonised listener is
killed with the process).  `none` means the loop is still running. -/
def acquisitionShutdown : List LoopEvent → Option ShutdownOutcome
  | [] => none
  | LoopEvent.controlOff :: rest => acquisitionShutdown rest
  | LoopEvent.activeCycle :: rest => acquisitionShutdown rest
  | LoopEvent.controlOffInterrupt :: _ =>
      some { sentinelSent := false, listenerJoined := false,
             jobsJoined := false }
  | LoopEvent.activeInterrupt :: _ =>
      some { sentinelSent := true, listenerJoined := true,
             jobsJoined := true }

/-! ## Theorems -/

/-- Helper: running the listener over a block of records followed by the
kill sentinel appends exactly the formatted rows, in order, and flushes
everything. -/
theorem listenerLoop_records_kill (rs : List (List String)) (rest : List QMsg)
    (w d : List String) :
    listenerLoop { written := w, flushed := d }
        (rs.map QMsg.record ++ QMsg.kill :: rest)
      = { written := w ++ rs.map rowString,
          flushed := w ++ rs.map rowString } := by
  induction rs generalizing w d with
  | nil => simp [listenerLoop]
  | cons r rs ih =>
      simp only [List.map_cons, List.cons_append, listenerLoop, List.append_eq]
      rw [ih]
      simp

/-- Helper: running the listener over a nonempty block of records (no
sentinel yet) appends the formatted rows in order, and the final flush has
already made all of them durable. -/
theorem listenerLoop_records (rs : List (List String)) (w d : List String)
    (h : rs ≠ []) :
    listenerLoop { written := w, flushed := d } (rs.map QMsg.record)
      = { written := w ++ rs.map rowString,
          flushed := w ++ rs.map rowString } := by
  induction rs generalizing w d with
  | nil => exact absurd rfl h
  | cons r rs ih =>
      rcases eq_or_ne rs [] with hrs | hrs
      · subst hrs; simp [listenerLoop]
      · simp only [List.map_cons, listenerLoop]
        rw [ih _ _ hrs]
        simp

/-- C1: the listener writes the fixed header exactly once at file creation,
appends each record received on the queue exactly once in arrival order
(the file after the kill sentinel is exactly the header followed by the N
formatted rows), and flushes after every append (after the k-th record the
flushed file already equals the header plus the first k rows). -/
theorem listener_appends_in_order (rs : List (List String)) (rest : List QMsg) :
    (listenerRun (rs.map QMsg.record ++ QMsg.kill :: rest)).written
        = headerLine :: rs.map rowString
    ∧ (listenerRun (rs.map QMsg.record ++ QMsg.kill :: rest)).flushed
        = headerLine :: rs.map rowString
    ∧ ((listenerRun (rs.map QMsg.record ++ QMsg.kill :: rest)).written.drop 1).length
        = rs.length
    ∧ (∀ k, 0 < k → k ≤ rs.length →
        (listenerRun ((rs.take k).map QMsg.record)).flushed
          = headerLine :: (rs.take k).map rowString) := by
  refine ⟨?_, ?_, ?_, ?_⟩
  · rw [listenerRun, listenerStart, listenerLoop_records_kill]; simp
  · rw [listenerRun, listenerStart, listenerLoop_records_kill]; simp
  · rw [listenerRun, listenerStart, listenerLoop_records_kill]
    simp
  · intro k hk hkle
    have hne : rs.take k ≠ [] := by
      cases rs with
      | nil => simp at hkle; omega
      | cons a l => cases k with
        | zero => omega
        | succ k2 => simp
    rw [listenerRun, listenerStart, listenerLoop_records _ _ _ hne]
    simp

/-- Witness for C1 at a concrete queue history. -/
theorem listener_appends_in_order_witness :
    (listenerRun (([["t", "1"]].take 1).map QMsg.record)).flushed
      = headerLine :: ([["t", "1"]].take 1).map rowString :=
  (listener_appends_in_order [["t", "1"]] []).2.2.2 1 (by decide) (by decide)

/-- Helper: membership in the replica produced by one existing-replica sync
cycle is membership in the old replica or in the fetched tail. -/
theorem mem_syncExisting (locLines remLines : List String) (n : Nat)
    (s : String) :
    s ∈ (syncExisting locLines remLines n).1
      ↔ s ∈ locLines ∨ s ∈ tailLines n remLines := by
  simp only [syncExisting, List.mem_append, List.mem_filter]
  constructor
  · rintro (h | ⟨h, _⟩)
    · exact Or.inl h
    · exact Or.inr h
  · rintro (h | h)
    · exact Or.inl h
    · by_cases hloc : s ∈ locLines
      · exact Or.inl hloc
      · exact Or.inr ⟨h, by simp [hloc]⟩

/-- Helper: the fetched tail of a concatenation is contained in the tail of
the left part followed by the whole right part. -/
theorem tailLines_append_subset (n : Nat) (a b : List String) :
    tailLines n (a ++ b) ⊆ tailLines n a ++ b := by
  unfold tailLines
  rcases Nat.le_total (a.length + b.length - n) a.length with h | h
  · rw [List.length_append, List.drop_append_of_le_length h]
    intro s hs
    rcases List.mem_append.1 hs with h1 | h1
    · exact List.mem_append_left _
        (List.drop_subset_drop_left _ (by omega) h1)
    · exact List.mem_append_right _ h1
  · intro s hs
    rw [List.length_append] at hs
    have heq : a.length + b.length - n
        = a.length + (a.length + b.length - n - a.length) := by omega
    rw [heq, List.drop_append] at hs
    exact List.mem_append_right _ (List.drop_subset _ _ hs)

/-- C2: with an existing replica whose line set matches the remote ledger
of the previous cycle, a growth of M new (distinct, fresh) lines behaves as
follows.  If M is at most the tail window, the updated replica's line set
equals the remote ledger's and every new line is appended exactly once.  If
M exceeds the window, the M - N oldest new lines are missing from the
updated replica, the N newest are present, and the missing lines stay
missing in any later cycle whose further remote growth does not repeat
them. -/
theorem sync_tail_window (locLines prevRem newLines : List String) (n : Nat)
    (hmem : ∀ s, s ∈ locLines ↔ s ∈ prevRem)
    (hnd : newLines.Nodup)
    (hfresh : ∀ s ∈ newLines, s ∉ prevRem) :
    (newLines.length ≤ n →
      (∀ s, s ∈ (syncExisting locLines (prevRem ++ newLines) n).1
          ↔ s ∈ prevRem ++ newLines)
      ∧ ∀ s ∈ newLines,
          ((syncExisting locLines (prevRem ++ newLines) n).1).count s = 1)
    ∧ (n < newLines.length →
      (∀ s ∈ newLines.take (newLines.length - n),
          s ∉ (syncExisting locLines (prevRem ++ newLines) n).1)
      ∧ (∀ s ∈ newLines.drop (newLines.length - n),
          s ∈ (syncExisting locLines (prevRem ++ newLines) n).1)
      ∧ ∀ more : List String,
          (∀ s ∈ newLines.take (newLines.length - n), s ∉ more) →
          ∀ s ∈ newLines.take (newLines.length - n),
            s ∉ (syncExisting (syncExisting locLines (prevRem ++ newLines) n).1
                  (prevRem ++ newLines ++ more) n).1) := by
  constructor
  · intro hMn
    have hidx : (prevRem ++ newLines).length - n ≤ prevRem.length := by
      rw [List.length_append]; omega
    have htail : tailLines n (prevRem ++ newLines)
        = prevRem.drop ((prevRem ++ newLines).length - n) ++ newLines := by
      rw [tailLines, List.drop_append_of_le_length hidx]
    constructor
    · intro s
      rw [mem_syncExisting, htail]
      constructor
      · rintro (h | h)
        · exact List.mem_append.2 (Or.inl ((hmem s).1 h))
        · rcases List.mem_append.1 h with h1 | h1
          · exact List.mem_append.2 (Or.inl (List.drop_subset _ _ h1))
          · exact List.mem_append.2 (Or.inr h1)
      · intro h
        rcases List.mem_append.1 h with h1 | h1
        · exact Or.inl ((hmem s).2 h1)
        · exact Or.inr (List.mem_append.2 (Or.inr h1))
    · intro s hs
      have hsloc : s ∉ locLines := fun hc => hfresh s hs ((hmem s).1 hc)
      have hfilter : (fun line => !locLines.contains line) s = true := by
        simp [hsloc]
      have hdropz : s ∉ prevRem.drop ((prevRem ++ newLines).length - n) :=
        fun hc => hfresh s hs (List.drop_subset _ _ hc)
      have h1 : List.count s ((tailLines n (prevRem ++ newLines)).filter
            (fun line => !locLines.contains line))
          = List.count s (tailLines n (prevRem ++ newLines)) :=
        List.count_filter hfilter
      have h2 : List.count s (tailLines n (prevRem ++ newLines))
          = List.count s (prevRem.drop ((prevRem ++ newLines).length - n))
            + List.count s newLines := by
        rw [htail, List.count_append]
      show List.count s (locLines
          ++ (tailLines n (prevRem ++ newLines)).filter
            (fun line => !locLines.contains line)) = 1
      rw [List.count_append, List.count_eq_zero.2 hsloc, h1, h2,
        List.count_eq_zero.2 hdropz, List.count_eq_one_of_mem hnd hs]
  · intro hMn
    have htail : tailLines n (prevRem ++ newLines)
        = newLines.drop (newLines.length - n) := by
      rw [tailLines, List.length_append,
        show prevRem.length + newLines.length - n
          = prevRem.length + (newLines.length - n) by omega,
        List.drop_append]
    have hsplit : newLines.take (newLines.length - n)
        ++ newLines.drop (newLines.length - n) = newLines :=
      List.take_append_drop _ _
    have hdisj : ∀ s ∈ newLines.take (newLines.length - n),
        s ∉ newLines.drop (newLines.length - n) := by
      intro s hs hc
      have hnd2 : (newLines.take (newLines.length - n)
          ++ newLines.drop (newLines.length - n)).Nodup := by
        rw [hsplit]; exact hnd
      exact (List.nodup_append.1 hnd2).2.2 hs hc
    have habsent : ∀ s ∈ newLines.take (newLines.length - n),
        s ∉ (syncExisting locLines (prevRem ++ newLines) n).1 := by
      intro s hs hc
      have hsnew : s ∈ newLines := by
        rw [← hsplit]; exact List.mem_append_left _ hs
      rcases (mem_syncExisting _ _ _ _).1 hc with h | h
      · exact hfresh s hsnew ((hmem s).1 h)
      · rw [htail] at h
        exact hdisj s hs h
    refine ⟨habsent, ?_, ?_⟩
    · intro s hs
      rw [mem_syncExisting, htail]
      exact Or.inr hs
    · intro more hmore s hs hc
      rcases (mem_syncExisting _ _ _ _).1 hc with h | h
      · exact habsent s hs h
      · have hsub := tailLines_append_subset n (prevRem ++ newLines) more
        rcases List.mem_append.1 (hsub h) with h1 | h1
        · rw [htail] at h1
          exact hdisj s hs h1
        · exact hmore s hs h1

/-- Witness for C2 at a concrete one-line growth within the window. -/
theorem sync_tail_window_witness :
    ((syncExisting ["a"] (["a"] ++ ["b"]) 1).1).count "b" = 1 :=
  ((sync_tail_window ["a"] ["a"] ["b"] 1 (fun _ => Iff.rfl) (by decide)
    (by decide)).1 (by decide)).2 "b" (by decide)

/-- Helper: the updated flag of an existing-replica sync cycle is true
exactly when some fetched tail line is missing from the local replica. -/
theorem syncExisting_flag (locLines remLines : List String) (n : Nat) :
    (syncExisting locLines remLines n).2 = true
      ↔ ∃ s ∈ tailLines n remLines, s ∉ locLines := by
  show (!((tailLines n remLines).filter
      (fun line => !locLines.contains line)).isEmpty) = true ↔ _
  rcases hfe : (tailLines n remLines).filter
      (fun line => !locLines.contains line) with _ | ⟨a, rest⟩
  · simp only [List.isEmpty_nil, Bool.not_true]
    constructor
    · intro h; cases h
    · rintro ⟨s, hs, hsloc⟩
      have hc : s ∈ (tailLines n remLines).filter
          (fun line => !locLines.contains line) :=
        List.mem_filter.2 ⟨hs, by simp [hsloc]⟩
      rw [hfe] at hc
      cases hc
  · simp only [List.isEmpty_cons, Bool.not_false, true_iff]
    have ha : a ∈ (tailLines n remLines).filter
        (fun line => !locLines.contains line) := by
      rw [hfe]; exact List.mem_cons_self a rest
    rcases List.mem_filter.1 ha with ⟨hmem, hp⟩
    exact ⟨a, hmem, by simpa using hp⟩

/-- C3: the sync reports updated iff it changed the replica.  Bootstrap
(no local replica) performs the full copy and reports true; with a replica
the flag is true iff some fetched tail line is missing locally, iff the
replica list actually changed; and an immediate second sync against an
unchanged remote appends nothing and reports false. -/
theorem sync_updated_iff_changed (locLines remLines : List String) (n : Nat) :
    sync_so2_data none remLines n = (remLines, true)
    ∧ ((sync_so2_data (some locLines) remLines n).2 = true
        ↔ ∃ s ∈ tailLines n remLines, s ∉ locLines)
    ∧ ((sync_so2_data (some locLines) remLines n).2 = true
        ↔ (sync_so2_data (some locLines) remLines n).1 ≠ locLines)
    ∧ sync_so2_data (some (sync_so2_data (some locLines) remLines n).1)
          remLines n
        = ((sync_so2_data (some locLines) remLines n).1, false) := by
  refine ⟨rfl, syncExisting_flag locLines remLines n, ?_, ?_⟩
  · show (syncExisting locLines remLines n).2 = true ↔ _
    rw [syncExisting_flag locLines remLines n]
    show _ ↔ ¬ (locLines ++ (tailLines n remLines).filter
        (fun line => !locLines.contains line)) = locLines
    rw [List.append_right_eq_self]
    constructor
    · rintro ⟨s, hs, hsloc⟩ hc
      have hm : s ∈ (tailLines n remLines).filter
          (fun line => !locLines.contains line) :=
        List.mem_filter.2 ⟨hs, by simp [hsloc]⟩
      rw [hc] at hm
      cases hm
    · intro h
      rcases hfe : (tailLines n remLines).filter
          (fun line => !locLines.contains line) with _ | ⟨a, rest⟩
      · exact absurd hfe h
      · have ha : a ∈ (tailLines n remLines).filter
            (fun line => !locLines.contains line) := by
          rw [hfe]; exact List.mem_cons_self a rest
        rcases List.mem_filter.1 ha with ⟨hmem, hp⟩
        exact ⟨a, hmem, by simpa using hp⟩
  · show syncExisting (locLines ++ (tailLines n remLines).filter
        (fun line => !locLines.contains line)) remLines n = _
    have hnil : (tailLines n remLines).filter
        (fun line => !(locLines ++ (tailLines n remLines).filter
          (fun l2 => !locLines.contains l2)).contains line) = [] := by
      apply List.filter_eq_nil_iff.2
      intro s hs
      simp
      exact fun h2 => ⟨hs, h2⟩
    rw [syncExisting, hnil]
    simp only [List.append_nil, List.isEmpty_nil, Bool.not_true]
    rfl

/-- Helper: one admission cycle never raises the in-flight count above 3. -/
theorem dispatchCycle_length_le {α : Type} (isAlive : α → Bool)
    (ps : List α) (j : α) (h : ps.length ≤ 3) :
    (dispatchCycle isAlive ps j).processes.length ≤ 3 := by
  have hp : (pruneFinished isAlive ps).length ≤ ps.length :=
    List.length_filter_le _ _
  rw [dispatchCycle]
  split
  · next h3 =>
      show (pruneFinished isAlive ps ++ [j]).length ≤ 3
      rw [List.length_append]
      simp only [List.length_cons, List.length_nil]
      omega
  · next h3 =>
      show (pruneFinished isAlive ps).length ≤ 3
      omega

/-- Helper: starting at most 3 in flight, the whole acquisition run keeps
at most 3 in flight. -/
theorem dispatchFold_le_three {α : Type} (cycles : List ((α → Bool) × α)) :
    ∀ ps : List α, ps.length ≤ 3 →
      (cycles.foldl (fun l c => (dispatchCycle c.1 l c.2).processes)
        ps).length ≤ 3 := by
  induction cycles with
  | nil => intro ps h; simpa using h
  | cons c cs ih =>
      intro ps h
      exact ih _ (dispatchCycle_length_le _ _ _ h)

/-- C4: in every acquisition cycle at most 3 fit jobs are in flight.
Completed jobs are pruned first; a new job is submitted iff the pruned set
has fewer than 3 members, the skip branch logs the warning, and neither
branch removes the spectrum file; consequently after any prefix of cycles
the in-flight list never exceeds 3 members. -/
theorem dispatch_admission_bound {α : Type} (cycles : List ((α → Bool) × α))
    (isAlive : α → Bool) (ps : List α) (j : α) :
    (∀ k, (dispatchRun (cycles.take k)).length ≤ 3)
    ∧ ((dispatchCycle isAlive ps j).submitted = true
        ↔ (pruneFinished isAlive ps).length < 3)
    ∧ (dispatchCycle isAlive ps j).processes
        = (if (pruneFinished isAlive ps).length < 3
           then pruneFinished isAlive ps ++ [j]
           else pruneFinished isAlive ps)
    ∧ (dispatchCycle isAlive ps j).warned
        = !(dispatchCycle isAlive ps j).submitted
    ∧ (dispatchCycle isAlive ps j).spectrumRemoved = false := by
  refine ⟨?_, ?_, ?_, ?_, ?_⟩
  · intro k
    exact dispatchFold_le_three _ [] (by simp)
  · rw [dispatchCycle]
    split
    · next h3 => simpa using h3
    · next h3 => simpa using h3
  · rw [dispatchCycle]
    split
    · next h3 => simp [h3]
    · next h3 => simp [h3]
  · rw [dispatchCycle]
    split <;> rfl
  · rw [dispatchCycle]
    split <;> rfl

/-- Helper: the integration-time ladder from the reference configuration is
the arithmetic progression 50, 60, ..., 300. -/
theorem intTimes_reference :
    intTimes 50 300 10 = [50, 60, 70, 80, 90, 100, 110, 120, 130, 140, 150,
      160, 170, 180, 190, 200, 210, 220, 230, 240, 250, 260, 270, 280, 290,
      300] := by
  decide

/-- Helper: with a nonzero peak the exposure update reduces to the
nearest-ladder choice at the scaled integration time. -/
theorem exposureNext_pos (targetInt maxInt lastIntTime : ℚ)
    (ladder : List Nat) (h : maxInt ≠ 0) :
    exposureNext targetInt maxInt lastIntTime ladder
      = chooseIntTime ladder (lastIntTime * (targetInt / maxInt)) := by
  rw [exposureNext, scaleFactor, if_neg h]

/-- C5: whenever the observed peak is positive, the chosen setting is a
ladder value nearest to `last_integration_time * target / last_peak`
(ties resolved to the first, i.e. smaller, ladder entry, as
`np.where(diff == min(diff))[0][0]` does); in the reference instance the
scaled value is 125 and the chosen ladder value is 120. -/
theorem exposure_nearest_ladder (targetInt maxInt lastIntTime : ℚ)
    (ladder : List Nat) (hpeak : 0 < maxInt) (hlad : ladder ≠ []) :
    (∃ v, exposureNext targetInt maxInt lastIntTime ladder = some v
      ∧ v ∈ ladder
      ∧ ∀ u ∈ ladder,
          |(v : ℚ) - lastIntTime * targetInt / maxInt|
            ≤ |(u : ℚ) - lastIntTime * targetInt / maxInt|)
    ∧ (100 : ℚ) * 50000 / 40000 = 125
    ∧ exposureNext 50000 40000 100 (intTimes 50 300 10) = some 120 := by
  refine ⟨?_, by norm_num, ?_⟩
  · have hne : maxInt ≠ 0 := ne_of_gt hpeak
    have hexp := exposureNext_pos targetInt maxInt lastIntTime ladder hne
    rcases hv : chooseIntTime ladder (lastIntTime * (targetInt / maxInt))
        with _ | v
    · exfalso
      rw [chooseIntTime] at hv
      exact hlad (List.argmin_eq_none.1 hv)
    · rw [chooseIntTime] at hv
      have hvmem := Option.mem_def.2 hv
      refine ⟨v, hexp.trans (by rw [chooseIntTime, hv]),
        List.argmin_mem hvmem, ?_⟩
      intro u hu
      have hle := List.le_of_mem_argmin hu hvmem
      rwa [← mul_div_assoc] at hle
  · rw [exposureNext, scaleFactor]
    norm_num
    rw [intTimes_reference]
    norm_num [chooseIntTime, List.argmin, List.foldl, List.argAux]

/-- Witness for C5 at the reference configuration. -/
theorem exposure_nearest_ladder_witness :
    exposureNext 50000 40000 100 (intTimes 50 300 10) = some 120 :=
  (exposure_nearest_ladder 50000 40000 100 (intTimes 50 300 10)
    (by norm_num) (by decide)).2.2

/-- C10 counterexample: no guard exists for a zero observed peak — the
scaling division `target_int / max_int` runs with a zero denominator, so
the cycle faults instead of completing the integration-time update. -/
theorem exposure_zero_peak_faults :
    exposureNext 50000 0 100 (intTimes 50 300 10) = none
    ∧ scaleFactor 50000 0 = none := by
  constructor
  · rw [exposureNext, scaleFactor]
    norm_num
  · rw [scaleFactor]
    norm_num

/-- C10 (amended): the exposure computation does not guard
`last_peak == 0`: at a zero peak the unguarded division faults the cycle,
while for any nonzero peak (and nonempty ladder) the update completes. -/
theorem exposure_zero_peak_unguarded (targetInt lastIntTime maxInt : ℚ)
    (ladder : List Nat) (hpeak : maxInt ≠ 0) (hlad : ladder ≠ []) :
    exposureNext targetInt 0 lastIntTime ladder = none
    ∧ (exposureNext targetInt maxInt lastIntTime ladder).isSome = true := by
  constructor
  · rw [exposureNext, scaleFactor]
    norm_num
  · rw [exposureNext_pos targetInt maxInt lastIntTime ladder hpeak]
    rcases hv : chooseIntTime ladder (lastIntTime * (targetInt / maxInt))
        with _ | v
    · rw [chooseIntTime] at hv
      exact absurd (List.argmin_eq_none.1 hv) hlad
    · rfl

/-- Witness for C10 (amended) at the reference configuration. -/
theorem exposure_zero_peak_unguarded_witness :
    (exposureNext 50000 40000 100 (intTimes 50 300 10)).isSome = true :=
  (exposure_zero_peak_unguarded 50000 100 40000 (intTimes 50 300 10)
    (by norm_num) (by decide)).2

/-- C6 counterexample: a fit job that raises delivers no outcome at all on
the result channel — `analyse_spec` has no handler, the process dies before
`q.put`, so the claimed typed failure outcome (exactly one outcome per
submitted job) is absent. -/
theorem fit_failure_no_outcome_cex :
    ¬ (analyse_spec (Except.error FitJobError.fitFailure)).queueMsgs.length
        = 1 := by
  decide

/-- C6 (amended): a failing fit job crashes only its own worker process —
the dispatcher and sibling jobs are unaffected and the batch queue content
is exactly the concatenation of the other jobs' messages — but the failure
is silently dropped: no message reaches the queue, while a successful job
delivers exactly one record message. -/
theorem fit_failure_silently_dropped (e : FitJobError) (res : List String)
    (pre post : List (Except FitJobError (List String))) :
    (analyse_spec (Except.error e)).queueMsgs = []
    ∧ (analyse_spec (Except.error e)).measFile = none
    ∧ (analyse_spec (Except.ok res)).queueMsgs = [QMsg.record res]
    ∧ jobBatchMsgs (pre ++ Except.error e :: post)
        = jobBatchMsgs pre ++ jobBatchMsgs post := by
  refine ⟨rfl, rfl, rfl, ?_⟩
  simp [jobBatchMsgs, analyse_spec]

/-- Transport whose remote commands succeed but whose file copies all fail;
used to exhibit the swallowed copy failure of `sync_results`. -/
def flakyTransport : Transport :=
  { run_command := fun _ =>
      Except.ok ["/home/pi/drone/Results/f/meas/meas_00001.txt"],
    copy_remote_file := fun _ _ =>
      Except.error SyncTransportError.copyFailure }

/-- C7 counterexample: `sync_results` wraps each copy in
`try: ... except Exception: pass`, so with a transport whose copies all
fail it still returns successfully (an empty synced list) — the transport
failure does not propagate to the caller as the claim requires. -/
theorem sync_results_swallows_failure_cex :
    sync_results flakyTransport "f" [] = Except.ok []
    ∧ flakyTransport.copy_remote_file
        (remoteRoot "f" ++ "/meas/meas_00001.txt")
        (localRoot "f" ++ "/meas/meas_00001.txt")
      = Except.error SyncTransportError.copyFailure := by
  constructor
  · rfl
  · rfl

/-- Transport failing every operation; used to witness the propagation
conjuncts. -/
def deadTransport : Transport :=
  { run_command := fun _ => Except.error SyncTransportError.commandFailure,
    copy_remote_file := fun _ _ =>
      Except.error SyncTransportError.copyFailure }

/-- C7 (amended): transport failures propagate untouched (no retry, no
swallowing) from `pull_log`, both paths of `sync_so2_data`, and
`sync_spectra`; `sync_results` propagates a failing remote listing but
silently skips any file whose copy fails, always returning success once the
listing succeeded. -/
theorem transport_failure_propagation (t : Transport) (folder : String)
    (locFiles locLines : List String) (n : Nat) (e : SyncTransportError)
    (r l : String) (rest : List (String × String)) :
    (pull_log t folder
        = t.copy_remote_file (remoteRoot folder ++ "/log.txt")
            (localRoot folder ++ "/log.txt"))
    ∧ (t.run_command (tailCommand folder n) = Except.error e →
        sync_so2_data_remote t folder (some locLines) n = Except.error e)
    ∧ (t.copy_remote_file (remoteRoot folder ++ "/so2_output.csv")
          (localRoot folder ++ "/so2_output.csv") = Except.error e →
        sync_so2_data_remote t folder none n = Except.error e)
    ∧ (t.run_command ("ls " ++ remoteRoot folder ++ "/spectrum*")
          = Except.error e →
        sync_spectra t folder locFiles = Except.error e)
    ∧ (t.copy_remote_file r l = Except.error e →
        copyAll t ((r, l) :: rest) = Except.error e)
    ∧ (t.run_command ("ls " ++ remoteRoot folder ++ "/meas/meas*")
          = Except.error e →
        sync_results t folder locFiles = Except.error e)
    ∧ (∀ res, t.run_command ("ls " ++ remoteRoot folder ++ "/meas/meas*")
          = Except.ok res →
        ∃ fs, sync_results t folder locFiles = Except.ok fs) := by
  refine ⟨rfl, ?_, ?_, ?_, ?_, ?_, ?_⟩
  · intro h
    rw [sync_so2_data_remote, h]
  · intro h
    rw [sync_so2_data_remote, h]
  · intro h
    rw [sync_spectra, h]
  · intro h
    rw [copyAll, h]
  · intro h
    rw [sync_results, h]
  · intro res h
    rw [sync_results, h]
    exact ⟨_, rfl⟩

/-- Witness for C7 (amended) on the all-failing transport. -/
theorem transport_failure_propagation_witness :
    sync_so2_data_remote deadTransport "f" (some []) 100
      = Except.error SyncTransportError.commandFailure :=
  (transport_failure_propagation deadTransport "f" [] [] 100
    SyncTransportError.commandFailure "r" "l" []).2.1 rfl

/-- C8: the log mirror drops the first remote log line and emits one line
twice.  With an empty widget, `toPlainText().split('\n')` is `['']` of
length 1, so the first cycle appends `log[1:]`; the widget then holds one
line fewer than observed, so the next cycle re-appends the last already
shown line.  Starting empty and reading the two-line log `A, B` twice, the
widget ends as `B, B`: line `A` (which is beyond the initially observed
count of zero) is never emitted, and line `B` is emitted twice —
contradicting the claim that each line appears at most once and that every
line beyond the previously observed count is included. -/
theorem log_mirror_off_by_one :
    monitorLogCycles [["A", "B"], ["A", "B"]] = ["B", "B"]
    ∧ List.count "A" (monitorLogCycles [["A", "B"], ["A", "B"]]) = 0
    ∧ List.count "B" (monitorLogCycles [["A", "B"], ["A", "B"]]) = 2 := by
  refine ⟨by decide, by decide, by decide⟩

/-- C9 counterexample: an operator interrupt arriving while the loop is in
the INACTIVE polling state (during `time.sleep(1)`, outside the `try`
block) terminates the loop with no `kill` sentinel emitted and no join of
the listener or the in-flight jobs. -/
theorem shutdown_inactive_not_graceful_cex :
    acquisitionShutdown [LoopEvent.controlOffInterrupt]
      = some { sentinelSent := false, listenerJoined := false,
               jobsJoined := false }
    ∧ (acquisitionShutdown [LoopEvent.controlOffInterrupt]).map
        ShutdownOutcome.sentinelSent ≠ some true := by
  refine ⟨rfl, by decide⟩

/-- C9 (amended): only a cancellation arriving inside the ACTIVE
acquisition body is caught by the `except KeyboardInterrupt` handler and
leads to the sentinel followed by joining the listener and all in-flight
jobs; a cancellation during the INACTIVE polling sleep propagates uncaught,
with no sentinel and no joins. -/
theorem shutdown_graceful_iff_active (pre rest : List LoopEvent)
    (hpre : ∀ ev ∈ pre,
      ev = LoopEvent.controlOff ∨ ev = LoopEvent.activeCycle) :
    acquisitionShutdown (pre ++ LoopEvent.activeInterrupt :: rest)
      = some { sentinelSent := true, listenerJoined := true,
               jobsJoined := true }
    ∧ acquisitionShutdown (pre ++ LoopEvent.controlOffInterrupt :: rest)
      = some { sentinelSent := false, listenerJoined := false,
               jobsJoined := false } := by
  induction pre with
  | nil => exact ⟨rfl, rfl⟩
  | cons ev evs ih =>
      have hev := hpre ev (List.mem_cons_self ev evs)
      have hrest : ∀ e2 ∈ evs,
          e2 = LoopEvent.controlOff ∨ e2 = LoopEvent.activeCycle :=
        fun e2 he2 => hpre e2 (List.mem_cons_of_mem ev he2)
      rcases hev with h | h <;> subst h <;>
        simpa [acquisitionShutdown] using ih hrest

/-- Witness for C9 (amended) on a short schedule. -/
theorem shutdown_graceful_iff_active_witness :
    acquisitionShutdown
        ([LoopEvent.controlOff] ++ LoopEvent.activeInterrupt :: [])
      = some { sentinelSent := true, listenerJoined := true,
               jobsJoined := true } :=
  (shutdown_graceful_iff_active [LoopEvent.controlOff] [] (by decide)).1

end DroneSpec
